import Mathlib

set_option maxRecDepth 10000

/-!
Verification of the tkgateway toolkit (lock.py, discover.py, benchmark.py).

The Python sources are shallowly embedded: pure fragments become Lean
functions, machine floats carrying wall-clock seconds become rationals,
byte strings become lists of naturals, and the outcome of a blocking HTTP
call becomes an explicit sum type.  JSON parsing by the standard library is
abstracted as a parameter of type String to Option Json, constrained only
where the Python library behaviour matters (the empty string never parses).
-/

namespace TKG

/-! ## A small JSON value model (shape of what json.loads returns) -/

inductive Json where
  | null : Json
  | bool (b : Bool) : Json
  | num (q : ℚ) : Json
  | str (s : String) : Json
  | arr (xs : List Json) : Json
  | obj (fields : List (String × Json)) : Json

/-- The literal success object returned by the tolerant locker operations. -/
def statusOk : Json := Json.obj [("status", Json.str "ok")]

/-- Outcome of one urlopen round trip as the client code observes it:
either the body was read successfully, or some exception was raised
(connection failure, timeout, non-2xx status raised as HTTPError, ...). -/
inductive HttpResult where
  | success (body : String) : HttpResult
  | failure : HttpResult
deriving DecidableEq

/-! ## lock.py response handling (claim C3)

Gateway.action, .synchronize, .update, .status_gateway and .search parse
the body with json.loads inside a try block whose generic handler returns
None; synchronize_locker and update_locker special-case an empty body and
a JSONDecodeError, returning the ok object instead. -/

/-- Body handling of Gateway.action (and of synchronize, update,
status_gateway, search): parse the body, any failure yields None.
An empty body is a json.loads failure, which the parse parameter models. -/
def strictHandle (parse : String → Option Json) : HttpResult → Option Json
  | .failure => none
  | .success body => parse body

/-- Body handling of Gateway.synchronize_locker and Gateway.update_locker:
an empty body is success, a JSONDecodeError on a non-empty body is success,
any other exception yields None. -/
def tolerantHandle (parse : String → Option Json) : HttpResult → Option Json
  | .failure => none
  | .success body =>
      if body = "" then some statusOk
      else
        match parse body with
        | some j => some j
        | none => some statusOk

/-- The operations of the Gateway client. -/
inductive Op where
  | open_ | close_ | calibrate | locker_status
  | synchronize_locker | update_locker
  | synchronize | update | status_gateway | search
deriving DecidableEq

/-- Which response handler each operation uses, per the source of lock.py. -/
def opHandle (op : Op) : (String → Option Json) → HttpResult → Option Json :=
  match op with
  | .synchronize_locker | .update_locker => tolerantHandle
  | _ => strictHandle

/-! ## lock.py CLI dispatch (claims C9 and C10) -/

/-- What one invocation of the lock.py command-line tool does, as decided
by the dispatch code at the bottom of the file. -/
inductive CliOutcome where
  | usage : CliOutcome
  | gatewaySearch : CliOutcome
  | gatewaySync : CliOutcome
  | gatewayUpdate : CliOutcome
  | gatewayStatus : CliOutcome
  | needAction : CliOutcome
  | unknownLocker (name : String) : CliOutcome
  | lockerAction (name action : String) : CliOutcome
  | unknownAction (action : String) : CliOutcome
deriving DecidableEq

/-- The dispatch of lock.py on sys.argv with the program name removed,
given the locker names present in the configuration. -/
def dispatch (lockers : List String) (args : List String) : CliOutcome :=
  match args with
  | [] => .usage
  | arg1 :: rest =>
      if arg1 = "list" ∨ arg1 = "search" then .gatewaySearch
      else if arg1 = "sync" then .gatewaySync
      else if arg1 = "update" then .gatewayUpdate
      else if arg1 = "status" then .gatewayStatus
      else
        match rest with
        | [] => .needAction
        | action :: _ =>
            if arg1 ∈ lockers then
              if action = "open" ∨ action = "close" ∨ action = "calibrate"
                  ∨ action = "status" ∨ action = "sync" ∨ action = "update" then
                .lockerAction arg1 action
              else .unknownAction action
            else .unknownLocker arg1

/-- Process exit status of lock.py for each outcome: sys.exit(1) is called
on the usage message, on a missing locker action and on an unknown locker;
every other path falls off the end of the script and exits 0 (the
unknown-action branch only prints). -/
def exitCode : CliOutcome → ℕ
  | .usage => 1
  | .needAction => 1
  | .unknownLocker _ => 1
  | _ => 0

/-- The four gateway-wide outcomes of the dispatch. -/
def CliOutcome.isGatewayWide : CliOutcome → Bool
  | .gatewaySearch | .gatewaySync | .gatewayUpdate | .gatewayStatus => true
  | _ => false

/-- The outcomes that touch a named locker. -/
def CliOutcome.isLockerOutcome : CliOutcome → Bool
  | .lockerAction _ _ | .unknownLocker _ | .needAction | .unknownAction _ => true
  | _ => false

/-! ## discover.py (claims C4 and C5) -/

/-- The candidate port list of discover.py, verbatim: note that 8888
occurs in both comment groups of the literal. -/
def COMMON_PORTS : List ℕ :=
  [80, 443, 8080, 8443, 8888, 9090, 9856,
   3000, 5000, 8000, 8001, 8888, 9000, 9001]

/-- The port scanner submits one check_port future per element of
COMMON_PORTS and appends each port whose connect succeeded as its future
completes; completionOrder is the order in which as_completed yields the
futures, an arbitrary permutation of the submitted list. -/
def scan_ports (isOpen : ℕ → Bool) (completionOrder : List ℕ) : List ℕ :=
  completionOrder.filter isOpen

/-- What one endpoint probe can observe: urlopen returned a response with
a status and a readable body, or raised HTTPError carrying a status code,
or raised some other exception. -/
inductive HttpResponse where
  | success (status : ℕ) (body : String) : HttpResponse
  | httpError (code : ℕ) : HttpResponse
  | exception : HttpResponse

/-- The HTTP status carried by the probe outcome, when any. -/
def HttpResponse.statusOf : HttpResponse → Option ℕ
  | .success st _ => some st
  | .httpError c => some c
  | .exception => none

/-- The record try_endpoint builds: its status field when present, the
parsed JSON data when any, the retained body prefix, and the type tag. -/
structure ProbeRecord where
  status : Option ℕ
  data : Option Json
  raw : Option String
  type : String

/-- try_endpoint of discover.py: on a readable response, parse the body as
JSON and tag the record json or text, retaining the first 200 characters;
on HTTPError keep its code under the http_error tag; on any other
exception produce a record with no status. -/
def try_endpoint (parse : String → Option Json) : HttpResponse → ProbeRecord
  | .success st body =>
      match parse body with
      | some j => ⟨some st, some j, some (String.mk (body.toList.take 200)), "json"⟩
      | none => ⟨some st, none, some (String.mk (body.toList.take 200)), "text"⟩
  | .httpError c => ⟨some c, none, none, "http_error"⟩
  | .exception => ⟨none, none, none, "exception"⟩

/-- The discovery test of scan_endpoints for GET probes:
result.get("status") in [200, 201]. -/
def getDiscovered (r : ProbeRecord) : Bool :=
  r.status = some 200 ∨ r.status = some 201

/-- The discovery test of scan_endpoints for POST probes: the GET test, or
the elif branch result.get("status") in [400]. -/
def postDiscovered (r : ProbeRecord) : Bool :=
  (r.status = some 200 ∨ r.status = some 201) ∨ r.status = some 400

/-- The GET half of scan_endpoints: each endpoint of the candidate list is
probed in order and recorded exactly when the GET test succeeds. -/
def scanGET (parse : String → Option Json) (probe : String → HttpResponse)
    (endpoints : List String) : List (String × ProbeRecord) :=
  endpoints.filterMap fun ep =>
    let r := try_endpoint parse (probe ep)
    if getDiscovered r then some (ep, r) else none

/-- The POST half of scan_endpoints, with the 400 branch included. -/
def scanPOST (parse : String → Option Json) (probe : String → HttpResponse)
    (endpoints : List String) : List (String × ProbeRecord) :=
  endpoints.filterMap fun ep =>
    let r := try_endpoint parse (probe ep)
    if postDiscovered r then some (ep, r) else none

/-! ## benchmark.py (claims C6, C7, C8)

Wall-clock durations are modelled as rationals; the statistics module
functions mean, median and the min/max builtins become exact rational
arithmetic on lists. -/

/-- One element of self.results as built by benchmark_request. -/
structure BResult where
  url : String
  method : String
  description : String
  status : Option ℕ
  response_time : ℚ
  success : Bool
  error : Option String
  locker_name : Option String

/-- statistics.mean. -/
def qmean (l : List ℚ) : ℚ := l.sum / l.length

/-- Python min over a nonempty list (0 on the empty list, which the code
never reaches). -/
def qmin : List ℚ → ℚ
  | [] => 0
  | a :: t => t.foldl min a

/-- Python max over a nonempty list. -/
def qmax : List ℚ → ℚ
  | [] => 0
  | a :: t => t.foldl max a

/-- statistics.median: sort, take the middle element for odd length and
the average of the two middle elements for even length. -/
def qmedian (l : List ℚ) : ℚ :=
  let s := l.insertionSort (· ≤ ·)
  let n := l.length
  if n % 2 = 1 then s.getD (n / 2) 0
  else (s.getD (n / 2 - 1) 0 + s.getD (n / 2) 0) / 2

/-- The square of statistics.stdev: the sample variance with the n - 1
denominator.  stdev itself is its (irrational) square root, which the
report prints only when at least two samples exist. -/
def sampleVariance (l : List ℚ) : ℚ :=
  (l.map fun x => (x - qmean l) ^ 2).sum / (l.length - 1 : ℕ)

/-- successful_results of generate_report. -/
def successfulResults (rs : List BResult) : List BResult :=
  rs.filter (·.success)

/-- failed_results of generate_report. -/
def failedResults (rs : List BResult) : List BResult :=
  rs.filter fun r => !r.success

/-- gateway_results: the successful results without a locker_name key. -/
def gatewayResults (rs : List BResult) : List BResult :=
  (successfulResults rs).filter fun r => r.locker_name = none

/-- response_times: round-trip times of the successful results. -/
def responseTimes (rs : List BResult) : List ℚ :=
  (successfulResults rs).map (·.response_time)

/-- The timing-statistics block of the report, printed only when there is
at least one successful result; the stdev line appears only for two or
more samples, recorded here through its square. -/
structure TimingStats where
  mean : ℚ
  median : ℚ
  fastest : ℚ
  slowest : ℚ
  stdevSquared : Option ℚ

/-- The statistics generate_report computes from a list of times. -/
def statsOfTimes (l : List ℚ) : TimingStats :=
  ⟨qmean l, qmedian l, qmin l, qmax l,
   if 1 < l.length then some (sampleVariance l) else none⟩

/-- The overall timing block of generate_report: present exactly when
some request succeeded, and computed from the successful times. -/
def overallStats (rs : List BResult) : Option TimingStats :=
  if (successfulResults rs).isEmpty then none
  else some (statsOfTimes (responseTimes rs))

/-- Python int() truncates toward zero. -/
def pyInt (q : ℚ) : ℤ :=
  if 0 ≤ q then ⌊q⌋ else -⌊-q⌋

/-- recommended_delay of generate_report: max(avg_time * 2, 1.0). -/
def recommendedDelay (rs : List BResult) : ℚ :=
  max (qmean (responseTimes rs) * 2) 1

/-- light_delay of generate_report, computed when gateway_results is
nonempty: max(gateway_avg * 0.5, 0.2). -/
def lightDelay (rs : List BResult) : ℚ :=
  max (qmean ((gatewayResults rs).map (·.response_time)) * (1 / 2)) (1 / 5)

/-- discovery_delay of generate_report: max(avg_time * 0.5, 0.2). -/
def discoveryDelay (rs : List BResult) : ℚ :=
  max (qmean (responseTimes rs) * (1 / 2)) (1 / 5)

/-- max_workers of generate_report: min(int(1 / discovery_delay), 5). -/
def maxWorkers (rs : List BResult) : ℤ :=
  min (pyInt (1 / discoveryDelay rs)) 5

/-- The summary object written to the report file. -/
structure Summary where
  total_requests : ℕ
  successful : ℕ
  failed : ℕ
  avg_response_time : Option ℚ

/-- The summary of generate_report: counts over all results, and the mean
response time of the successful ones, None when there is none. -/
def summaryOf (rs : List BResult) : Summary :=
  ⟨rs.length, (successfulResults rs).length, (failedResults rs).length,
   if (successfulResults rs).isEmpty then none
   else some (qmean (responseTimes rs))⟩

/-! ### The per-locker test loop of run_benchmark_suite (claim C8) -/

/-- One locker entry as the loop reads it: locker_config.get for the
identifier and code keys, None when the key is missing. -/
structure LockerConfig where
  identifier : Option String
  code : Option String

/-- Python falsiness of an optional string: None and the empty string. -/
def pyFalsy : Option String → Bool
  | none => true
  | some s => s = ""

/-- The skip test of run_benchmark_suite: not identifier or not code or
identifier == YOUR_IDENTIFIER or code == YOUR_SHARE_CODE. -/
def placeholderSkip (lc : LockerConfig) : Bool :=
  pyFalsy lc.identifier || pyFalsy lc.code ||
    lc.identifier = some "YOUR_IDENTIFIER" || lc.code = some "YOUR_SHARE_CODE"

/-- What the loop body does for one locker: print a skip message and issue
no request, or run the iteration loop issuing one HTTP request per
iteration. -/
inductive LockerEvent where
  | skipped (name : String) : LockerEvent
  | tested (name : String) (requests : ℕ) : LockerEvent
deriving DecidableEq

/-- HTTP requests issued for one locker of the loop. -/
def LockerEvent.requestCount : LockerEvent → ℕ
  | .skipped _ => 0
  | .tested _ n => n

/-- The per-locker loop of run_benchmark_suite over the configured lockers
in iteration order. -/
def runLockerTests (iterations : ℕ)
    (lockers : List (String × LockerConfig)) : List LockerEvent :=
  lockers.map fun nc =>
    if placeholderSkip nc.2 then .skipped nc.1 else .tested nc.1 iterations

/-! ## The rate limiter of lock.py (claim C2)

Clock readings are rationals; time.sleep is modelled as advancing the
clock by exactly the requested duration, and the instant the limiter
stores in last_request_time is the post-sleep reading of time.time(). -/

/-- The mutable fields of a Gateway instance that the limiter touches,
with the constructor defaults of lock.py. -/
structure Gateway where
  rate_limit_delay : ℚ := 1
  rate_limit_delay_light : ℚ := 1 / 5
  last_request_time : ℚ := 0

/-- A Gateway as __init__ builds it with all defaults. -/
def initGateway : Gateway := {}

/-- The delay _rate_limit selects for the call. -/
def delayFor (gw : Gateway) (light : Bool) : ℚ :=
  if light then gw.rate_limit_delay_light else gw.rate_limit_delay

/-- Gateway._rate_limit at clock reading now: the sleep it performs and
the state it leaves, whose last_request_time is the post-sleep clock. -/
def rateLimit (gw : Gateway) (light : Bool) (now : ℚ) : ℚ × Gateway :=
  let elapsed := now - gw.last_request_time
  let delay := delayFor gw light
  let sleep := if elapsed < delay then delay - elapsed else 0
  (sleep, { gw with last_request_time := now + sleep })

/-- The light_operation flag each caller of _rate_limit passes: False for
the four signed heavy operations, True everywhere else. -/
def isLightOp : Op → Bool
  | .open_ | .close_ | .calibrate | .locker_status => false
  | _ => true

/-- Run a sequence of calls on one instance.  Each list element is the
light flag of the call and the idle time between the previous call
completing and this call reaching the limiter; returned per call are the
sleep performed and the completion instant (the successive
last_request_time values). -/
def runCalls : Gateway → List (Bool × ℚ) → List (ℚ × ℚ)
  | _, [] => []
  | gw, c :: rest =>
      let out := rateLimit gw c.1 (gw.last_request_time + c.2)
      (out.1, out.2.last_request_time) :: runCalls out.2 rest

/-! ## The signed request of lock.py action (claim C1)

Bytes are naturals below 256; 32-bit words are naturals reduced modulo
2 to the 32.  hashlib.sha256, hmac.new and base64.b64encode are embedded
by their algorithms (FIPS 180-4, RFC 2104, RFC 4648), and
urllib.parse.urlencode by the quote_plus byte rules. -/

/-- Reduce to a 32-bit word. -/
def w32 (n : ℕ) : ℕ := n % 2 ^ 32

/-- Right rotation of a 32-bit word. -/
def rotr32 (n x : ℕ) : ℕ := w32 (x >>> n ||| x <<< (32 - n))

/-- SHA-256 choice function; complement taken within 32 bits. -/
def ch (x y z : ℕ) : ℕ := (x &&& y) ^^^ ((x ^^^ (2 ^ 32 - 1)) &&& z)

/-- SHA-256 majority function. -/
def maj (x y z : ℕ) : ℕ := (x &&& y) ^^^ (x &&& z) ^^^ (y &&& z)

/-- Upper-case sigma 0. -/
def bigSigma0 (x : ℕ) : ℕ := rotr32 2 x ^^^ rotr32 13 x ^^^ rotr32 22 x

/-- Upper-case sigma 1. -/
def bigSigma1 (x : ℕ) : ℕ := rotr32 6 x ^^^ rotr32 11 x ^^^ rotr32 25 x

/-- Lower-case sigma 0. -/
def smallSigma0 (x : ℕ) : ℕ := rotr32 7 x ^^^ rotr32 18 x ^^^ (x >>> 3)

/-- Lower-case sigma 1. -/
def smallSigma1 (x : ℕ) : ℕ := rotr32 17 x ^^^ rotr32 19 x ^^^ (x >>> 10)

/-- The 64 SHA-256 round constants, written in decimal. -/
def K256 : List ℕ :=
  [1116352408, 1899447441, 3049323471, 3921009573,
   961987163, 1508970993, 2453635748, 2870763221,
   3624381080, 310598401, 607225278, 1426881987,
   1925078388, 2162078206, 2614888103, 3248222580,
   3835390401, 4022224774, 264347078, 604807628,
   770255983, 1249150122, 1555081692, 1996064986,
   2554220882, 2821834349, 2952996808, 3210313671,
   3336571891, 3584528711, 113926993, 338241895,
   666307205, 773529912, 1294757372, 1396182291,
   1695183700, 1986661051, 2177026350, 2456956037,
   2730485921, 2820302411, 3259730800, 3345764771,
   3516065817, 3600352804, 4094571909, 275423344,
   430227734, 506948616, 659060556, 883997877,
   958139571, 1322822218, 1537002063, 1747873779,
   1955562222, 2024104815, 2227730452, 2361852424,
   2428436474, 2756734187, 3204031479, 3329325298]

/-- Big-endian bytes of n, exactly k bytes. -/
def toBytesBE : ℕ → ℕ → List ℕ
  | 0, _ => []
  | k + 1, n => toBytesBE k (n / 256) ++ [n % 256]

/-- SHA-256 padding: a 0x80 byte, zeros to 56 mod 64, and the bit length
in 8 big-endian bytes. -/
def padMessage (msg : List ℕ) : List ℕ :=
  msg ++ 0x80 :: List.replicate ((64 - (msg.length + 9) % 64) % 64) 0
      ++ toBytesBE 8 (8 * msg.length)

/-- Split into successive 64-byte chunks, structurally on a fuel bound by
the length so that the kernel can evaluate it. -/
def chunks64Go : ℕ → List ℕ → List (List ℕ)
  | 0, _ => []
  | _, [] => []
  | fuel + 1, a :: l => ((a :: l).take 64) :: chunks64Go fuel ((a :: l).drop 64)

/-- Split into successive 64-byte chunks. -/
def chunks64 (l : List ℕ) : List (List ℕ) := chunks64Go l.length l

/-- Combine bytes into big-endian 32-bit words. -/
def bytesToWords : List ℕ → List ℕ
  | b0 :: b1 :: b2 :: b3 :: rest =>
      (((b0 * 256 + b1) * 256 + b2) * 256 + b3) :: bytesToWords rest
  | _ => []

/-- One extension step of the message schedule. -/
def scheduleStep (acc : List ℕ) : List ℕ :=
  let n := acc.length
  acc ++ [w32 (smallSigma1 (acc.getD (n - 2) 0) + acc.getD (n - 7) 0
      + smallSigma0 (acc.getD (n - 15) 0) + acc.getD (n - 16) 0)]

/-- The 64-word message schedule from the 16 words of a chunk. -/
def schedule (w : List ℕ) : List ℕ := scheduleStep^[48] w

/-- The eight working registers. -/
structure Regs where
  a : ℕ
  b : ℕ
  c : ℕ
  d : ℕ
  e : ℕ
  f : ℕ
  g : ℕ
  h : ℕ

/-- The SHA-256 initial hash value, written in decimal. -/
def initRegs : Regs :=
  ⟨1779033703, 3144134277, 1013904242, 2773480762,
   1359893119, 2600822924, 528734635, 1541459225⟩

/-- One compression round on registers, fed the round constant and the
schedule word. -/
def compressRound (r : Regs) (kw : ℕ × ℕ) : Regs :=
  let t1 := w32 (r.h + bigSigma1 r.e + ch r.e r.f r.g + kw.1 + kw.2)
  let t2 := w32 (bigSigma0 r.a + maj r.a r.b r.c)
  ⟨w32 (t1 + t2), r.a, r.b, r.c, w32 (r.d + t1), r.e, r.f, r.g⟩

/-- Process one 64-byte chunk and add the result into the hash state. -/
def processChunk (hs : Regs) (chunk : List ℕ) : Regs :=
  let r := (K256.zip (schedule (bytesToWords chunk))).foldl compressRound hs
  ⟨w32 (hs.a + r.a), w32 (hs.b + r.b), w32 (hs.c + r.c), w32 (hs.d + r.d),
   w32 (hs.e + r.e), w32 (hs.f + r.f), w32 (hs.g + r.g), w32 (hs.h + r.h)⟩

/-- SHA-256 of a byte string, as 32 digest bytes. -/
def sha256 (msg : List ℕ) : List ℕ :=
  let f := (chunks64 (padMessage msg)).foldl processChunk initRegs
  toBytesBE 4 f.a ++ toBytesBE 4 f.b ++ toBytesBE 4 f.c ++ toBytesBE 4 f.d
    ++ toBytesBE 4 f.e ++ toBytesBE 4 f.f ++ toBytesBE 4 f.g ++ toBytesBE 4 f.h

/-- HMAC-SHA256 (RFC 2104): hash an over-long key, zero-pad to the 64-byte
block, and apply the inner 0x36 and outer 0x5c masks. -/
def hmacSha256 (key msg : List ℕ) : List ℕ :=
  let k0 := if 64 < key.length then sha256 key else key
  let kp := k0 ++ List.replicate (64 - k0.length) 0
  sha256 ((kp.map fun b => b ^^^ 0x5c) ++ sha256 ((kp.map fun b => b ^^^ 0x36) ++ msg))

/-- The base64 alphabet. -/
def base64Alphabet : List Char :=
  "ABCDEFGHIJKLMNOPQRSTUVWXYZabcdefghijklmnopqrstuvwxyz0123456789+/".toList

/-- Character of one 6-bit group. -/
def b64c (n : ℕ) : Char := base64Alphabet.getD n 'A'

/-- base64.b64encode three bytes at a time, with terminal padding. -/
def base64Chunks : List ℕ → List Char
  | [] => []
  | [b1] => [b64c (b1 / 4), b64c (b1 % 4 * 16), '=', '=']
  | [b1, b2] => [b64c (b1 / 4), b64c (b1 % 4 * 16 + b2 / 16), b64c (b2 % 16 * 4), '=']
  | b1 :: b2 :: b3 :: rest =>
      b64c (b1 / 4) :: b64c (b1 % 4 * 16 + b2 / 16)
        :: b64c (b2 % 16 * 4 + b3 / 64) :: b64c (b3 % 64) :: base64Chunks rest

/-- base64.b64encode followed by decode to an ASCII string. -/
def base64String (bs : List ℕ) : String := String.mk (base64Chunks bs)

/-- str.encode with the ascii codec: the code points themselves, meaningful
when every character is below 128. -/
def asciiEncode (s : String) : List ℕ := s.toList.map Char.toNat

/-- Whether the ascii codec accepts the string. -/
def isAsciiString (s : String) : Bool := s.toList.all fun c => c.toNat < 128

/-- UTF-8 bytes of a string, as urllib quoting consumes them. -/
def utf8Bytes (s : String) : List ℕ :=
  (s.toList.map fun c => (String.utf8EncodeChar c).map UInt8.toNat).flatten

/-- The bytes quote_plus passes through unescaped: ASCII letters, digits,
underscore, dot, hyphen and tilde. -/
def isUrlSafe (b : ℕ) : Bool :=
  (0x41 ≤ b ∧ b ≤ 0x5a) ∨ (0x61 ≤ b ∧ b ≤ 0x7a) ∨ (0x30 ≤ b ∧ b ≤ 0x39)
    ∨ b = 0x5f ∨ b = 0x2e ∨ b = 0x2d ∨ b = 0x7e

/-- Upper-case hexadecimal digit. -/
def hexDigitUpper (n : ℕ) : Char := "0123456789ABCDEF".toList.getD n '0'

/-- quote_plus on one byte: safe bytes pass, a space becomes a plus, and
everything else is percent-escaped in upper-case hex. -/
def quoteByte (b : ℕ) : List Char :=
  if isUrlSafe b then [Char.ofNat b]
  else if b = 0x20 then ['+']
  else ['%', hexDigitUpper (b / 16), hexDigitUpper (b % 16)]

/-- urllib.parse.quote_plus of a string. -/
def quotePlus (s : String) : String :=
  String.mk ((utf8Bytes s).map quoteByte).flatten

/-- urllib.parse.urlencode of an association list: quote_plus on each key
and value, joined as key=value pairs with ampersands. -/
def urlencodePairs (ps : List (String × String)) : String :=
  String.intercalate "&" (ps.map fun kv => quotePlus kv.1 ++ "=" ++ quotePlus kv.2)

/-- str(int(time.time())): the current clock reading truncated toward
zero and rendered in decimal. -/
def signedTs (now : ℚ) : String := toString (pyInt now)

/-- Lines 50 and 51 of lock.py (and equally benchmark.py, lines 87 and
88): base64 of the HMAC-SHA256 of the timestamp bytes keyed by the shared
secret bytes. -/
def signature (code ts : String) : String :=
  base64String (hmacSha256 (asciiEncode code) (asciiEncode ts))

/-- The form body Gateway.action posts (lock.py line 53), identical to
what GatewayBenchmark._create_locker_status_request builds: the urlencoded
hash, identifier and ts fields. -/
def actionBody (identifier code : String) (now : ℚ) : String :=
  let ts := signedTs now
  urlencodePairs [("hash", signature code ts), ("identifier", identifier), ("ts", ts)]

/-! # Theorems -/

/-- Claim C3: for synchronize_locker and update_locker, an empty response
body, or a non-empty body that fails JSON parsing, makes the operation
return the success object with status ok rather than None; for every
other operation an empty or unparsable body yields None. -/
theorem c3_empty_body_tolerance (parse : String → Option Json)
    (hempty : parse "" = none) (body : String) (hfail : parse body = none) :
    (∀ op : Op, (op = .synchronize_locker ∨ op = .update_locker) →
        opHandle op parse (.success "") = some statusOk
          ∧ opHandle op parse (.success body) = some statusOk
          ∧ opHandle op parse (.success "") ≠ none
          ∧ opHandle op parse (.success body) ≠ none)
    ∧ (∀ op : Op, op ≠ .synchronize_locker → op ≠ .update_locker →
        opHandle op parse (.success "") = none
          ∧ opHandle op parse (.success body) = none) := by
  constructor
  · rintro op (rfl | rfl) <;>
      · refine ⟨rfl, ?_, by simp [opHandle, tolerantHandle], ?_⟩ <;>
        · simp only [opHandle, tolerantHandle]
          by_cases hb : body = "" <;> simp [hb, hfail]
  · intro op h1 h2
    have hs : opHandle op = strictHandle := by
      cases op <;> first | rfl | exact absurd rfl h1 | exact absurd rfl h2
    exact ⟨by simp [hs, strictHandle, hempty], by simp [hs, strictHandle, hfail]⟩

/-- Witness for C3 at a concrete parse function and body. -/
theorem c3_empty_body_tolerance_witness :
    (∀ op : Op, (op = .synchronize_locker ∨ op = .update_locker) →
        opHandle op (fun _ => none) (.success "") = some statusOk
          ∧ opHandle op (fun _ => none) (.success "garbage") = some statusOk
          ∧ opHandle op (fun _ => none) (.success "") ≠ none
          ∧ opHandle op (fun _ => none) (.success "garbage") ≠ none)
    ∧ (∀ op : Op, op ≠ .synchronize_locker → op ≠ .update_locker →
        opHandle op (fun _ => none) (.success "") = none
          ∧ opHandle op (fun _ => none) (.success "garbage") = none) :=
  c3_empty_body_tolerance (fun _ => none) rfl "garbage" rfl

/-- Claim C9 counterexample: a known locker with an unknown action is a
usage error by the claim, yet the script only prints and exits 0: the
unknown-action branch of the dispatch has no sys.exit call. -/
theorem c9_counterexample :
    dispatch ["frontdoor"] ["frontdoor", "frobnicate"] = .unknownAction "frobnicate"
      ∧ exitCode (dispatch ["frontdoor"] ["frontdoor", "frobnicate"]) = 0
      ∧ exitCode (dispatch ["frontdoor"] ["frontdoor", "frobnicate"]) ≠ 1 := by
  refine ⟨by decide, by decide, by decide⟩

/-- Claim C9 as amended: the exit status is 1 exactly when no argument is
given, or when the first argument is not a gateway command and either no
second argument is given or the first argument is not a configured
locker.  An unknown locker action, like a failed HTTP call, exits 0. -/
theorem c9_exit_codes (lockers : List String) (args : List String) :
    exitCode (dispatch lockers args) = 1 ↔
      args = [] ∨ ∃ a1 rest, args = a1 :: rest
        ∧ a1 ≠ "list" ∧ a1 ≠ "search" ∧ a1 ≠ "sync" ∧ a1 ≠ "update" ∧ a1 ≠ "status"
        ∧ (rest = [] ∨ a1 ∉ lockers) := by
  cases args with
  | nil => simp [dispatch, exitCode]
  | cons a1 rest =>
      by_cases h1 : a1 = "list" ∨ a1 = "search"
      · have hd : dispatch lockers (a1 :: rest) = .gatewaySearch := by
          simp [dispatch, h1]
        rw [hd]
        simp only [exitCode]
        constructor
        · intro hx; exact absurd hx (by norm_num)
        · rintro (h | ⟨b1, brest, heq, hb1, hb2, _, _, _, _⟩)
          · cases h
          · obtain ⟨rfl, rfl⟩ : b1 = a1 ∧ brest = rest := by
              injection heq with hh ht; exact ⟨hh.symm, ht.symm⟩
            rcases h1 with rfl | rfl
            · exact absurd rfl hb1
            · exact absurd rfl hb2
      · push_neg at h1
        by_cases h2 : a1 = "sync"
        · subst h2
          have hd : dispatch lockers ("sync" :: rest) = .gatewaySync := by
            simp [dispatch]
          rw [hd]
          simp only [exitCode]
          constructor
          · intro hx; exact absurd hx (by norm_num)
          · rintro (h | ⟨b1, brest, heq, _, _, hb3, _, _, _⟩)
            · cases h
            · obtain ⟨rfl, rfl⟩ : b1 = "sync" ∧ brest = rest := by
                injection heq with hh ht; exact ⟨hh.symm, ht.symm⟩
              exact absurd rfl hb3
        · by_cases h3 : a1 = "update"
          · subst h3
            have hd : dispatch lockers ("update" :: rest) = .gatewayUpdate := by
              simp [dispatch]
            rw [hd]
            simp only [exitCode]
            constructor
            · intro hx; exact absurd hx (by norm_num)
            · rintro (h | ⟨b1, brest, heq, _, _, _, hb4, _, _⟩)
              · cases h
              · obtain ⟨rfl, rfl⟩ : b1 = "update" ∧ brest = rest := by
                  injection heq with hh ht; exact ⟨hh.symm, ht.symm⟩
                exact absurd rfl hb4
          · by_cases h4 : a1 = "status"
            · subst h4
              have hd : dispatch lockers ("status" :: rest) = .gatewayStatus := by
                simp [dispatch]
              rw [hd]
              simp only [exitCode]
              constructor
              · intro hx; exact absurd hx (by norm_num)
              · rintro (h | ⟨b1, brest, heq, _, _, _, _, hb5, _⟩)
                · cases h
                · obtain ⟨rfl, rfl⟩ : b1 = "status" ∧ brest = rest := by
                    injection heq with hh ht; exact ⟨hh.symm, ht.symm⟩
                  exact absurd rfl hb5
            · cases rest with
              | nil =>
                  have hd : dispatch lockers [a1] = .needAction := by
                    simp [dispatch, h1.1, h1.2, h2, h3, h4]
                  rw [hd]
                  exact iff_of_true rfl
                    (Or.inr ⟨a1, [], rfl, h1.1, h1.2, h2, h3, h4, Or.inl rfl⟩)
              | cons action more =>
                  by_cases h5 : a1 ∈ lockers
                  · have hd : dispatch lockers (a1 :: action :: more)
                        = if action = "open" ∨ action = "close" ∨ action = "calibrate"
                            ∨ action = "status" ∨ action = "sync" ∨ action = "update"
                          then .lockerAction a1 action else .unknownAction action := by
                      simp [dispatch, h1.1, h1.2, h2, h3, h4, h5]
                    rw [hd]
                    constructor
                    · intro hx
                      exfalso
                      split at hx <;> exact absurd hx (by simp [exitCode])
                    · rintro (h | ⟨b1, brest, heq, _, _, _, _, _, hb⟩)
                      · cases h
                      · obtain ⟨rfl, rfl⟩ : b1 = a1 ∧ brest = action :: more := by
                          injection heq with hh ht; exact ⟨hh.symm, ht.symm⟩
                        rcases hb with hb | hb
                        · cases hb
                        · exact absurd h5 hb
                  · have hd : dispatch lockers (a1 :: action :: more)
                        = .unknownLocker a1 := by
                      simp [dispatch, h1.1, h1.2, h2, h3, h4, h5]
                    rw [hd]
                    exact iff_of_true rfl
                      (Or.inr ⟨a1, action :: more, rfl, h1.1, h1.2, h2, h3, h4,
                        Or.inr h5⟩)

/-- Claim C10: the gateway command names take precedence in the dispatch,
so a configured locker named list, search, sync, update or status is
unreachable through the two-argument locker form: the invocation always
performs the gateway-wide operation and never a locker outcome. -/
theorem c10_gateway_precedence (lockers : List String) (name : String)
    (h : name = "list" ∨ name = "search" ∨ name = "sync" ∨ name = "update"
      ∨ name = "status") (rest : List String) :
    (dispatch lockers (name :: rest)).isGatewayWide = true
      ∧ (dispatch lockers (name :: rest)).isLockerOutcome = false
      ∧ ∀ action, dispatch lockers (name :: rest) ≠ .lockerAction name action := by
  have : dispatch lockers (name :: rest) = .gatewaySearch
      ∨ dispatch lockers (name :: rest) = .gatewaySync
      ∨ dispatch lockers (name :: rest) = .gatewayUpdate
      ∨ dispatch lockers (name :: rest) = .gatewayStatus := by
    rcases h with rfl | rfl | rfl | rfl | rfl <;> simp [dispatch]
  rcases this with h' | h' | h' | h' <;>
    simp [h', CliOutcome.isGatewayWide, CliOutcome.isLockerOutcome]

/-- Claim C4: a GET probe is discovered exactly on status 200 or 201, a
POST probe exactly on 200, 201 or 400; a response whose body was read is
tagged json exactly when the body parses and text otherwise, retaining at
most the first 200 characters; and 404 responses are discovered for
neither method. -/
theorem c4_endpoint_classification (parse : String → Option Json) :
    (∀ resp : HttpResponse, getDiscovered (try_endpoint parse resp) = true ↔
        (resp.statusOf = some 200 ∨ resp.statusOf = some 201))
    ∧ (∀ resp : HttpResponse, postDiscovered (try_endpoint parse resp) = true ↔
        (resp.statusOf = some 200 ∨ resp.statusOf = some 201 ∨ resp.statusOf = some 400))
    ∧ (∀ st body, (try_endpoint parse (.success st body)).type
        = if (parse body).isSome then "json" else "text")
    ∧ (∀ st body, (try_endpoint parse (.success st body)).raw
          = some (String.mk (body.toList.take 200))
        ∧ (String.mk (body.toList.take 200)).length ≤ 200)
    ∧ (getDiscovered (try_endpoint parse (.httpError 404)) = false
        ∧ postDiscovered (try_endpoint parse (.httpError 404)) = false)
    ∧ (∀ (probe : String → HttpResponse) (eps : List String) (ep : String),
        ep ∈ (scanGET parse probe eps).map Prod.fst ↔
          ep ∈ eps ∧ getDiscovered (try_endpoint parse (probe ep)) = true)
    ∧ (∀ (probe : String → HttpResponse) (eps : List String) (ep : String),
        ep ∈ (scanPOST parse probe eps).map Prod.fst ↔
          ep ∈ eps ∧ postDiscovered (try_endpoint parse (probe ep)) = true) := by
  have htry : ∀ resp : HttpResponse,
      (try_endpoint parse resp).status = resp.statusOf := by
    intro resp
    cases resp with
    | success st body =>
        simp only [try_endpoint, HttpResponse.statusOf]
        cases parse body <;> rfl
    | httpError c => rfl
    | exception => rfl
  refine ⟨?_, ?_, ?_, ?_, ⟨rfl, rfl⟩, ?_, ?_⟩
  · intro resp
    simp [getDiscovered, htry resp]
  · intro resp
    simp [postDiscovered, htry resp, or_assoc]
  · intro st body
    simp only [try_endpoint]
    cases parse body <;> simp
  · intro st body
    refine ⟨?_, ?_⟩
    · simp only [try_endpoint]
      cases parse body <;> rfl
    · rw [String.length_mk]
      exact le_trans (List.length_take_le 200 body.toList) (le_refl 200)
  · intro probe eps ep
    constructor
    · intro hm
      obtain ⟨x, hx, hfst⟩ := List.mem_map.1 hm
      obtain ⟨a, ha, hfa⟩ := List.mem_filterMap.1 hx
      by_cases hda : getDiscovered (try_endpoint parse (probe a)) = true
      · simp only [hda, if_pos] at hfa
        obtain rfl : (a, try_endpoint parse (probe a)) = x := by
          simpa using hfa
        obtain rfl : a = ep := hfst
        exact ⟨ha, hda⟩
      · simp only [if_neg hda] at hfa
        cases hfa
    · rintro ⟨hmem, hdisc⟩
      exact List.mem_map.2 ⟨(ep, try_endpoint parse (probe ep)),
        List.mem_filterMap.2 ⟨ep, hmem, by simp [scanGET, hdisc]⟩, rfl⟩
  · intro probe eps ep
    constructor
    · intro hm
      obtain ⟨x, hx, hfst⟩ := List.mem_map.1 hm
      obtain ⟨a, ha, hfa⟩ := List.mem_filterMap.1 hx
      by_cases hda : postDiscovered (try_endpoint parse (probe a)) = true
      · simp only [hda, if_pos] at hfa
        obtain rfl : (a, try_endpoint parse (probe a)) = x := by
          simpa using hfa
        obtain rfl : a = ep := hfst
        exact ⟨ha, hda⟩
      · simp only [if_neg hda] at hfa
        cases hfa
    · rintro ⟨hmem, hdisc⟩
      exact List.mem_map.2 ⟨(ep, try_endpoint parse (probe ep)),
        List.mem_filterMap.2 ⟨ep, hmem, by simp [scanPOST, hdisc]⟩, rfl⟩

/-- Count of an element in a filtered list. -/
theorem count_filter_eq (a : ℕ) (p : ℕ → Bool) (l : List ℕ) :
    (l.filter p).count a = if p a then l.count a else 0 := by
  split
  · exact List.count_filter ‹p a = true›
  · rw [List.count_eq_zero]
    intro hmem
    have := (List.mem_filter.1 hmem).2
    simp_all

/-- Every candidate port other than 8888 occurs at most once in the
literal COMMON_PORTS list. -/
theorem commonPorts_count_le (p : ℕ) (hp : p ≠ 8888) :
    COMMON_PORTS.count p ≤ 1 := by
  by_cases hm : p ∈ COMMON_PORTS
  · fin_cases hm <;> first | exact absurd rfl hp | decide
  · simp [List.count_eq_zero.2 hm]

/-- Claim C5 counterexample: 8888 appears twice in the COMMON_PORTS
literal, so with every probe succeeding and the futures completing in
submission order the open-port list reports 8888 twice, refuting the
claim that every candidate port appears at most once. -/
theorem c5_counterexample :
    (scan_ports (fun _ => true) COMMON_PORTS).count 8888 = 2
      ∧ ¬ (scan_ports (fun _ => true) COMMON_PORTS).count 8888 ≤ 1 := by
  decide

/-- Claim C5 as amended: for any completion order of the probes, a port is
reported open exactly when it is a candidate whose connect succeeded; each
reported port occurs exactly as often as in the candidate list, hence at
most once for every port except 8888, which is listed twice and is
reported twice whenever it is open. -/
theorem c5_port_scan (isOpen : ℕ → Bool) (order : List ℕ)
    (h : order.Perm COMMON_PORTS) :
    (∀ p, p ∈ scan_ports isOpen order ↔ p ∈ COMMON_PORTS ∧ isOpen p = true)
    ∧ (∀ p, (scan_ports isOpen order).count p
        = if isOpen p then COMMON_PORTS.count p else 0)
    ∧ (∀ p, p ≠ 8888 → (scan_ports isOpen order).count p ≤ 1)
    ∧ (scan_ports isOpen order).count 8888 = (if isOpen 8888 then 2 else 0) := by
  have hcount : ∀ p, (scan_ports isOpen order).count p
      = if isOpen p then COMMON_PORTS.count p else 0 := by
    intro p
    rw [scan_ports, count_filter_eq, h.count_eq]
  refine ⟨?_, hcount, ?_, ?_⟩
  · intro p
    simp [scan_ports, List.mem_filter, h.mem_iff]
  · intro p hp
    rw [hcount p]
    split
    · exact commonPorts_count_le p hp
    · exact Nat.zero_le 1
  · rw [hcount 8888]
    split <;> decide

/-- Witness for the amended C5 at the submission order itself and a probe
where only port 80 accepts the connect. -/
theorem c5_port_scan_witness :
    COMMON_PORTS.Perm COMMON_PORTS
      ∧ ((∀ p, p ∈ scan_ports (fun q => decide (q = 80)) COMMON_PORTS ↔
            p ∈ COMMON_PORTS ∧ decide (p = 80) = true)
        ∧ (∀ p, (scan_ports (fun q => decide (q = 80)) COMMON_PORTS).count p
            = if decide (p = 80) then COMMON_PORTS.count p else 0)
        ∧ (∀ p, p ≠ 8888 →
            (scan_ports (fun q => decide (q = 80)) COMMON_PORTS).count p ≤ 1)
        ∧ (scan_ports (fun q => decide (q = 80)) COMMON_PORTS).count 8888
            = (if decide ((8888 : ℕ) = 80) then 2 else 0)) :=
  ⟨List.Perm.refl _, c5_port_scan (fun q => decide (q = 80)) COMMON_PORTS (List.Perm.refl _)⟩

/-- The skip test of the benchmark locker loop, spelled out over the two
optional configuration values. -/
theorem placeholderSkip_eq (lc : LockerConfig) :
    placeholderSkip lc = true ↔
      lc.identifier = none ∨ lc.identifier = some ""
        ∨ lc.identifier = some "YOUR_IDENTIFIER"
        ∨ lc.code = none ∨ lc.code = some ""
        ∨ lc.code = some "YOUR_SHARE_CODE" := by
  obtain ⟨i, c⟩ := lc
  cases i <;> cases c <;> simp [placeholderSkip, pyFalsy] <;> tauto

/-- Claim C8: the per-locker loop of the benchmark skips exactly the
entries whose identifier or code is missing, empty or one of the
placeholder values, issuing zero HTTP requests for a skipped locker and
the full iteration count of requests for every other locker. -/
theorem c8_placeholder_skip (iterations : ℕ)
    (lockers : List (String × LockerConfig)) :
    runLockerTests iterations lockers
      = lockers.map (fun nc =>
          if nc.2.identifier = none ∨ nc.2.identifier = some ""
              ∨ nc.2.identifier = some "YOUR_IDENTIFIER"
              ∨ nc.2.code = none ∨ nc.2.code = some ""
              ∨ nc.2.code = some "YOUR_SHARE_CODE"
          then LockerEvent.skipped nc.1
          else LockerEvent.tested nc.1 iterations)
    ∧ (∀ name, (LockerEvent.skipped name).requestCount = 0)
    ∧ (∀ name, (LockerEvent.tested name iterations).requestCount = iterations) := by
  refine ⟨?_, fun _ => rfl, fun _ => rfl⟩
  rw [runLockerTests]
  apply List.map_eq_map_iff.mpr
  intro nc _
  by_cases hsk : placeholderSkip nc.2 = true
  · rw [if_pos hsk, if_pos ((placeholderSkip_eq nc.2).1 hsk)]
  · rw [if_neg (by simpa using hsk),
      if_neg (fun hc => hsk ((placeholderSkip_eq nc.2).2 hc))]

/-- A concrete run with three successful gateway requests timing 0.1,
0.2 and 0.3 seconds. -/
def sampleResults : List BResult :=
  [⟨"http://h/status", "GET", "Gateway Status", some 200, 1 / 10, true, none, none⟩,
   ⟨"http://h/status", "GET", "Gateway Status", some 200, 2 / 10, true, none, none⟩,
   ⟨"http://h/lockers", "GET", "List Lockers", some 200, 3 / 10, true, none, none⟩]

/-- A request that failed with a timeout after six seconds. -/
def failedResult : BResult :=
  ⟨"http://h/status", "GET", "Gateway Status", none, 6, false, some "timeout", none⟩

/-- Claim C6: the recommended heavy delay is max of twice the overall mean
and one second, the light delay is max of half the gateway-only mean and
a fifth of a second, the discovery worker count is the floor of the
inverse discovery delay capped at five; on the sample timings 0.1, 0.2,
0.3 the heavy recommendation is 1 and the light recommendation is 0.2. -/
theorem c6_recommendations (rs : List BResult) :
    recommendedDelay rs = max (2 * qmean (responseTimes rs)) 1
    ∧ lightDelay rs
        = max (1 / 2 * qmean ((gatewayResults rs).map (·.response_time))) (1 / 5)
    ∧ discoveryDelay rs = max (1 / 2 * qmean (responseTimes rs)) (1 / 5)
    ∧ maxWorkers rs
        = min (pyInt (1 / max (1 / 2 * qmean (responseTimes rs)) (1 / 5))) 5
    ∧ qmean (responseTimes sampleResults) = 1 / 5
    ∧ recommendedDelay sampleResults = 1
    ∧ lightDelay sampleResults = 1 / 5
    ∧ maxWorkers sampleResults = 5 := by
  refine ⟨?_, ?_, ?_, ?_, ?_, ?_, ?_, ?_⟩
  · rw [recommendedDelay, mul_comm]
  · rw [lightDelay, mul_comm]
  · rw [discoveryDelay, mul_comm]
  · rw [maxWorkers, discoveryDelay, mul_comm]
  · norm_num [qmean, responseTimes, successfulResults, sampleResults]
  · norm_num [recommendedDelay, qmean, responseTimes, successfulResults, sampleResults]
  · norm_num [lightDelay, qmean, gatewayResults, responseTimes, successfulResults,
      sampleResults]
  · norm_num [maxWorkers, discoveryDelay, pyInt, qmean, responseTimes,
      successfulResults, sampleResults]

/-- Claim C7: the timing statistics are functions of the successful
results alone, a failed result changes only the total and failed counts
of the summary, the summary counts partition the results, the average is
the mean of successful times or None, and the sample standard deviation
is computed exactly when at least two successful samples exist. -/
theorem c7_statistics (rs : List BResult) (r : BResult) (hr : r.success = false) :
    responseTimes (r :: rs) = responseTimes rs
    ∧ overallStats (r :: rs) = overallStats rs
    ∧ overallStats (successfulResults rs) = overallStats rs
    ∧ (summaryOf (r :: rs)).total_requests = (summaryOf rs).total_requests + 1
    ∧ (summaryOf (r :: rs)).failed = (summaryOf rs).failed + 1
    ∧ (summaryOf (r :: rs)).successful = (summaryOf rs).successful
    ∧ (summaryOf (r :: rs)).avg_response_time = (summaryOf rs).avg_response_time
    ∧ (summaryOf rs).total_requests = rs.length
    ∧ (summaryOf rs).successful + (summaryOf rs).failed = rs.length
    ∧ ((summaryOf rs).avg_response_time
        = if (successfulResults rs).isEmpty then none
          else some (qmean (responseTimes rs)))
    ∧ (∀ ts, overallStats rs = some ts →
        ts.stdevSquared = if 1 < (successfulResults rs).length
          then some (sampleVariance (responseTimes rs)) else none)
    ∧ (overallStats rs).isSome = !(successfulResults rs).isEmpty := by
  have hsr : successfulResults (r :: rs) = successfulResults rs := by
    simp [successfulResults, List.filter_cons, hr]
  have hfr : failedResults (r :: rs) = r :: failedResults rs := by
    simp [failedResults, List.filter_cons, hr]
  have hrt : responseTimes (r :: rs) = responseTimes rs := by
    rw [responseTimes, hsr, responseTimes]
  have hss : successfulResults (successfulResults rs) = successfulResults rs := by
    simp [successfulResults, List.filter_filter]
  refine ⟨hrt, ?_, ?_, ?_, ?_, ?_, ?_, rfl, ?_, rfl, ?_, ?_⟩
  · rw [overallStats, hsr, hrt, overallStats]
  · rw [overallStats, hss, responseTimes, hss, ← responseTimes, overallStats]
  · simp [summaryOf]
  · simp [summaryOf, hfr]
  · simp [summaryOf, hsr]
  · simp only [summaryOf, hsr, hrt]
  · simp only [summaryOf, successfulResults, failedResults]
    exact (List.length_eq_length_filter_add (fun r : BResult => r.success)).symm
  · intro ts hts
    rw [overallStats] at hts
    by_cases hne : (successfulResults rs).isEmpty
    · rw [if_pos hne] at hts
      cases hts
    · rw [if_neg hne] at hts
      have := Option.some.inj hts
      rw [← this]
      have hlen : (responseTimes rs).length = (successfulResults rs).length := by
        rw [responseTimes, List.length_map]
      rw [statsOfTimes]
      simp only [hlen]
  · rw [overallStats]
    by_cases hne : (successfulResults rs).isEmpty <;> simp [hne]

/-- Witness for C7 at a failed timeout result prepended to the sample
run. -/
theorem c7_statistics_witness :
    failedResult.success = false
    ∧ (responseTimes (failedResult :: sampleResults) = responseTimes sampleResults
      ∧ overallStats (failedResult :: sampleResults) = overallStats sampleResults
      ∧ overallStats (successfulResults sampleResults) = overallStats sampleResults
      ∧ (summaryOf (failedResult :: sampleResults)).total_requests
          = (summaryOf sampleResults).total_requests + 1
      ∧ (summaryOf (failedResult :: sampleResults)).failed
          = (summaryOf sampleResults).failed + 1
      ∧ (summaryOf (failedResult :: sampleResults)).successful
          = (summaryOf sampleResults).successful
      ∧ (summaryOf (failedResult :: sampleResults)).avg_response_time
          = (summaryOf sampleResults).avg_response_time
      ∧ (summaryOf sampleResults).total_requests = sampleResults.length
      ∧ (summaryOf sampleResults).successful + (summaryOf sampleResults).failed
          = sampleResults.length
      ∧ ((summaryOf sampleResults).avg_response_time
          = if (successfulResults sampleResults).isEmpty then none
            else some (qmean (responseTimes sampleResults)))
      ∧ (∀ ts, overallStats sampleResults = some ts →
          ts.stdevSquared = if 1 < (successfulResults sampleResults).length
            then some (sampleVariance (responseTimes sampleResults)) else none)
      ∧ (overallStats sampleResults).isSome
          = !(successfulResults sampleResults).isEmpty) :=
  ⟨rfl, c7_statistics sampleResults failedResult rfl⟩

/-- The limiter leaves the two configured delays untouched. -/
theorem delayFor_rateLimit (gw : Gateway) (b : Bool) (now : ℚ) (b' : Bool) :
    delayFor (rateLimit gw b now).2 b' = delayFor gw b' := by
  cases b' <;> rfl

/-- One limited call completes at least one full delay after the previous
stored instant, whatever the idle time was. -/
theorem rateLimit_last_ge (gw : Gateway) (b : Bool) (g : ℚ) :
    gw.last_request_time + delayFor gw b
      ≤ (rateLimit gw b (gw.last_request_time + g)).2.last_request_time := by
  by_cases h : gw.last_request_time + g - gw.last_request_time < delayFor gw b
  · simp only [rateLimit, if_pos h]
    linarith
  · simp only [rateLimit, if_neg h]
    push_neg at h
    linarith

/-- The sleep of one limited call never exceeds the selected delay when
the call arrives at or after the previous completion. -/
theorem rateLimit_sleep_le (gw : Gateway) (b : Bool) (g : ℚ) (hg : 0 ≤ g)
    (hd : 0 ≤ delayFor gw b) :
    (rateLimit gw b (gw.last_request_time + g)).1 ≤ delayFor gw b := by
  by_cases h : gw.last_request_time + g - gw.last_request_time < delayFor gw b
  · simp only [rateLimit, if_pos h]
    linarith
  · simp only [rateLimit, if_neg h]
    exact hd

/-- The run produces one entry per call. -/
theorem runCalls_length (calls : List (Bool × ℚ)) :
    ∀ gw : Gateway, (runCalls gw calls).length = calls.length := by
  induction calls with
  | nil => intro gw; rfl
  | cons c rest ih => intro gw; simp [runCalls, ih]

/-- The first completion of a run lies at least one delay beyond the
instant stored at entry. -/
theorem runCalls_head_ge (gw : Gateway) (calls : List (Bool × ℚ)) (b : Bool)
    (hb : ∀ c ∈ calls, c.1 = b) :
    ∀ x ∈ ((runCalls gw calls).map Prod.snd).head?,
      gw.last_request_time + delayFor gw b ≤ x := by
  cases calls with
  | nil => simp [runCalls]
  | cons c rest =>
      intro x hx
      have hc : c.1 = b := hb c (List.mem_cons_self c rest)
      simp only [runCalls, List.map_cons, List.head?_cons, Option.mem_def,
        Option.some.injEq] at hx
      rw [← hx, ← hc]
      exact rateLimit_last_ge gw c.1 c.2

/-- Completions of a uniform-flag run spread by at least one delay per
extra call: last completion minus first is at least length minus one
delays. -/
theorem runCalls_spread (b : Bool) (calls : List (Bool × ℚ)) :
    ∀ gw : Gateway, (∀ c ∈ calls, c.1 = b) →
    ∀ x ∈ ((runCalls gw calls).map Prod.snd).head?,
    ∀ y ∈ ((runCalls gw calls).map Prod.snd).getLast?,
      x + ((calls.length - 1 : ℕ) : ℚ) * delayFor gw b ≤ y := by
  induction calls with
  | nil => simp [runCalls]
  | cons c rest ih =>
      intro gw hb x hx y hy
      set gw1 := (rateLimit gw c.1 (gw.last_request_time + c.2)).2 with hgw1
      have hrunc : runCalls gw (c :: rest)
          = ((rateLimit gw c.1 (gw.last_request_time + c.2)).1,
              gw1.last_request_time) :: runCalls gw1 rest := rfl
      rw [hrunc] at hx hy
      simp only [List.map_cons, List.head?_cons, Option.mem_def,
        Option.some.injEq] at hx
      cases rest with
      | nil =>
          simp only [runCalls, List.map_cons, List.map_nil,
            List.getLast?_singleton, Option.mem_def, Option.some.injEq] at hy
          rw [← hx, ← hy]
          simp
      | cons c2 rest2 =>
          have hb2 : ∀ d ∈ c2 :: rest2, d.1 = b := fun d hd =>
            hb d (List.mem_cons_of_mem c hd)
          set gw2 := (rateLimit gw1 c2.1 (gw1.last_request_time + c2.2)).2 with hgw2
          have hcons : runCalls gw1 (c2 :: rest2)
              = ((rateLimit gw1 c2.1 (gw1.last_request_time + c2.2)).1,
                  gw2.last_request_time) :: runCalls gw2 rest2 := rfl
          have hy' : y ∈ ((runCalls gw1 (c2 :: rest2)).map Prod.snd).getLast? := by
            rw [hcons] at hy ⊢
            simpa only [List.map_cons, List.getLast?_cons_cons] using hy
          have hhead : gw2.last_request_time
              ∈ ((runCalls gw1 (c2 :: rest2)).map Prod.snd).head? := by
            rw [hcons]
            simp
          have hge : gw1.last_request_time + delayFor gw1 b
              ≤ gw2.last_request_time :=
            runCalls_head_ge gw1 (c2 :: rest2) b hb2 _ hhead
          have hih := ih gw1 hb2 _ hhead y hy'
          have hdel : delayFor gw1 b = delayFor gw b := by
            rw [hgw1]; exact delayFor_rateLimit gw c.1 _ b
          rw [hdel] at hge hih
          rw [← hx]
          simp only [List.length_cons, Nat.add_sub_cancel] at hih ⊢
          push_cast at hih ⊢
          linarith

/-- No sleep of a uniform-flag run with nonnegative idle times exceeds
the configured delay. -/
theorem runCalls_sleep_le (b : Bool) (calls : List (Bool × ℚ)) :
    ∀ gw : Gateway, (∀ c ∈ calls, c.1 = b) → (∀ c ∈ calls, 0 ≤ c.2) →
    0 ≤ delayFor gw b →
    ∀ e ∈ runCalls gw calls, e.1 ≤ delayFor gw b := by
  induction calls with
  | nil => simp [runCalls]
  | cons c rest ih =>
      intro gw hb hg hd e he
      have hc : c.1 = b := hb c (List.mem_cons_self c rest)
      set gw1 := (rateLimit gw c.1 (gw.last_request_time + c.2)).2 with hgw1
      have hrunc : runCalls gw (c :: rest)
          = ((rateLimit gw c.1 (gw.last_request_time + c.2)).1,
              gw1.last_request_time) :: runCalls gw1 rest := rfl
      rw [hrunc] at he
      have hdel : delayFor gw1 b = delayFor gw b := by
        rw [hgw1]; exact delayFor_rateLimit gw c.1 _ b
      rcases List.mem_cons.1 he with rfl | hmem
      · simpa [hc] using rateLimit_sleep_le gw c.1 c.2
          (hg c (List.mem_cons_self c rest)) (by rw [hc]; exact hd)
      · have hb1 : ∀ d ∈ rest, d.1 = b := fun d hd' =>
          hb d (List.mem_cons_of_mem c hd')
        have hg1 : ∀ d ∈ rest, 0 ≤ d.2 := fun d hd' =>
          hg d (List.mem_cons_of_mem c hd')
        have := ih gw1 hb1 hg1 (by rw [hdel]; exact hd) e hmem
        rwa [hdel] at this

/-- Claim C2: before each request the limiter sleeps exactly the
remainder of the configured delay when the elapsed time falls short of it
and not at all otherwise; the heavy delay serves exactly the four signed
operations and the light delay all others, with defaults 1.0 and 0.2
seconds; the completions of N back-to-back calls with one delay d span at
least (N-1) times d; and with nonnegative idle times no call sleeps more
than d. -/
theorem c2_rate_limiter :
    (∀ (gw : Gateway) (light : Bool) (now : ℚ),
        (now - gw.last_request_time < delayFor gw light →
          (rateLimit gw light now).1
            = delayFor gw light - (now - gw.last_request_time))
        ∧ (delayFor gw light ≤ now - gw.last_request_time →
          (rateLimit gw light now).1 = 0)
        ∧ (rateLimit gw light now).2.last_request_time
            = now + (rateLimit gw light now).1)
    ∧ (∀ op : Op, isLightOp op = false ↔
        (op = .open_ ∨ op = .close_ ∨ op = .calibrate ∨ op = .locker_status))
    ∧ (∀ gw : Gateway, delayFor gw false = gw.rate_limit_delay
        ∧ delayFor gw true = gw.rate_limit_delay_light)
    ∧ initGateway.rate_limit_delay = 1
    ∧ initGateway.rate_limit_delay_light = 1 / 5
    ∧ (∀ (gw : Gateway) (calls : List (Bool × ℚ)) (b : Bool),
        (∀ c ∈ calls, c.1 = b) →
        (runCalls gw calls).length = calls.length
        ∧ ∀ x ∈ ((runCalls gw calls).map Prod.snd).head?,
          ∀ y ∈ ((runCalls gw calls).map Prod.snd).getLast?,
            x + ((calls.length - 1 : ℕ) : ℚ) * delayFor gw b ≤ y)
    ∧ (∀ (gw : Gateway) (calls : List (Bool × ℚ)) (b : Bool),
        (∀ c ∈ calls, c.1 = b) → (∀ c ∈ calls, 0 ≤ c.2) →
        0 ≤ delayFor gw b →
        ∀ e ∈ runCalls gw calls, e.1 ≤ delayFor gw b) := by
  refine ⟨?_, ?_, fun gw => ⟨rfl, rfl⟩, rfl, rfl, ?_, ?_⟩
  · intro gw light now
    refine ⟨?_, ?_, ?_⟩
    · intro h
      simp only [rateLimit, if_pos h]
    · intro h
      simp only [rateLimit, if_neg (not_lt.2 h)]
    · by_cases h : now - gw.last_request_time < delayFor gw light <;>
        simp only [rateLimit, if_pos, if_neg, h, if_true, if_false]
  · intro op
    cases op <;> simp [isLightOp]
  · intro gw calls b hb
    exact ⟨runCalls_length calls gw, runCalls_spread b calls gw hb⟩
  · intro gw calls b hb hg hd
    exact runCalls_sleep_le b calls gw hb hg hd

/-- Witness for C2: on a default instance, a heavy call arriving half a
second after the stored instant sleeps the remaining half second, and two
back-to-back heavy calls complete at least one second apart. -/
theorem c2_rate_limiter_witness :
    ((1 : ℚ) / 2 - initGateway.last_request_time < delayFor initGateway false
      ∧ (rateLimit initGateway false (1 / 2)).1
          = delayFor initGateway false - (1 / 2 - initGateway.last_request_time))
    ∧ ((∀ c ∈ [((false : Bool), (5 : ℚ)), ((false : Bool), (0 : ℚ))], c.1 = false)
      ∧ (runCalls initGateway [((false : Bool), (5 : ℚ)), ((false : Bool), (0 : ℚ))]).length
          = [((false : Bool), (5 : ℚ)), ((false : Bool), (0 : ℚ))].length
      ∧ ∀ x ∈ ((runCalls initGateway
            [((false : Bool), (5 : ℚ)), ((false : Bool), (0 : ℚ))]).map Prod.snd).head?,
        ∀ y ∈ ((runCalls initGateway
            [((false : Bool), (5 : ℚ)), ((false : Bool), (0 : ℚ))]).map Prod.snd).getLast?,
          x + (([((false : Bool), (5 : ℚ)), ((false : Bool), (0 : ℚ))].length - 1 : ℕ) : ℚ)
              * delayFor initGateway false ≤ y) :=
  ⟨⟨by norm_num [initGateway, delayFor],
    (c2_rate_limiter.1 initGateway false (1 / 2)).1
      (by norm_num [initGateway, delayFor])⟩,
   ⟨by simp,
    c2_rate_limiter.2.2.2.2.2.1 initGateway
      [((false : Bool), (5 : ℚ)), ((false : Bool), (0 : ℚ))] false (by simp)⟩⟩

/-- urlencode of a three-pair association list, written out. -/
theorem urlencodePairs_three (k1 v1 k2 v2 k3 v3 : String) :
    urlencodePairs [(k1, v1), (k2, v2), (k3, v3)]
      = quotePlus k1 ++ "=" ++ quotePlus v1 ++ "&" ++ quotePlus k2 ++ "="
        ++ quotePlus v2 ++ "&" ++ quotePlus k3 ++ "=" ++ quotePlus v3 := by
  simp [urlencodePairs, String.intercalate, String.intercalate.go,
    String.append_assoc]

/-- The embedded SHA-256 reproduces the FIPS 180-4 digest of the
three-byte message abc. -/
theorem sha256_vector_abc :
    sha256 (asciiEncode "abc")
      = [186, 120, 22, 191, 143, 1, 207, 234,
         65, 65, 64, 222, 93, 174, 34, 35,
         176, 3, 97, 163, 150, 23, 122, 156,
         180, 16, 255, 97, 242, 0, 21, 173] := by
  decide

/-- The embedded SHA-256 reproduces the digest of the empty message. -/
theorem sha256_vector_empty :
    sha256 []
      = [227, 176, 196, 66, 152, 252, 28, 20,
         154, 251, 244, 200, 153, 111, 185, 36,
         39, 174, 65, 228, 100, 155, 147, 76,
         164, 149, 153, 27, 120, 82, 184, 85] := by
  decide

/-- The embedded HMAC-SHA256 reproduces the reference digest for a
100-byte key, exercising the hashed-key branch of the construction. -/
theorem hmacSha256_vector_long_key :
    hmacSha256 (List.replicate 100 107) (asciiEncode "msg")
      = [189, 86, 161, 120, 44, 40, 48, 232,
         171, 198, 237, 134, 106, 87, 161, 35,
         6, 97, 230, 80, 184, 76, 98, 247,
         238, 58, 204, 197, 250, 90, 244, 145] := by
  decide

/-- The full embedded pipeline reproduces byte for byte the form body the
Python client posts for a sample secret and timestamp. -/
theorem actionBody_vector :
    actionBody "lock1" "secret" (1700000000 : ℚ)
      = "hash=SyJ%2FiDGzdj0GaQF1GtTFg%2B0IgyvxkkpOxQwuhxsehYY%3D&identifier=lock1&ts=1700000000" := by
  decide

/-- Claim C1: the signed request body is the urlencoding of exactly the
three fields hash, identifier and ts, where ts is the clock truncated to
seconds in decimal and hash is the base64 of the HMAC-SHA256 of the ts
bytes keyed by the shared-secret bytes; the identifier appears in the
body but not in the signed message, and signing is deterministic. -/
theorem c1_signed_request (identifier code : String) (now : ℚ)
    (hcode : isAsciiString code = true) :
    actionBody identifier code now
      = quotePlus "hash" ++ "="
        ++ quotePlus (base64String (hmacSha256 (asciiEncode code)
            (asciiEncode (toString (pyInt now)))))
        ++ "&" ++ quotePlus "identifier" ++ "=" ++ quotePlus identifier
        ++ "&" ++ quotePlus "ts" ++ "=" ++ quotePlus (toString (pyInt now))
    ∧ quotePlus "hash" = "hash"
    ∧ quotePlus "identifier" = "identifier"
    ∧ quotePlus "ts" = "ts"
    ∧ signedTs now = toString (pyInt now)
    ∧ (∀ secret ts : String, signature secret ts = signature secret ts) := by
  refine ⟨?_, by decide, by decide, by decide, rfl, fun _ _ => rfl⟩
  show urlencodePairs [("hash", signature code (signedTs now)),
      ("identifier", identifier), ("ts", signedTs now)] = _
  rw [urlencodePairs_three]
  simp [signature, signedTs]

/-- Witness for C1 at a concrete identifier, ASCII secret and clock. -/
theorem c1_signed_request_witness :
    isAsciiString "secret" = true
    ∧ (actionBody "lock1" "secret" (1700000000 : ℚ)
        = quotePlus "hash" ++ "="
          ++ quotePlus (base64String (hmacSha256 (asciiEncode "secret")
              (asciiEncode (toString (pyInt (1700000000 : ℚ))))))
          ++ "&" ++ quotePlus "identifier" ++ "=" ++ quotePlus "lock1"
          ++ "&" ++ quotePlus "ts" ++ "=" ++ quotePlus (toString (pyInt (1700000000 : ℚ)))
      ∧ quotePlus "hash" = "hash"
      ∧ quotePlus "identifier" = "identifier"
      ∧ quotePlus "ts" = "ts"
      ∧ signedTs (1700000000 : ℚ) = toString (pyInt (1700000000 : ℚ))
      ∧ (∀ secret ts : String, signature secret ts = signature secret ts)) :=
  ⟨by decide, c1_signed_request "lock1" "secret" (1700000000 : ℚ) (by decide)⟩

/-- Witness for C10: a configuration really containing a locker named
status still dispatches to the gateway-wide status operation. -/
theorem c10_gateway_precedence_witness :
    (dispatch ["status"] ["status", "open"]).isGatewayWide = true
      ∧ (dispatch ["status"] ["status", "open"]).isLockerOutcome = false
      ∧ ∀ action, dispatch ["status"] ["status", "open"] ≠ .lockerAction "status" action :=
  c10_gateway_precedence ["status"] "status" (by simp) ["open"]

end TKG
